import Mathlib

/-
Verification of the mock-comfy job queue server (src/main.go).

The server state (`ComfyUIMock`) is guarded by a single mutex `mu`.  We embed
the program as a labelled transition system whose atomic steps are exactly the
lock-protected critical sections of the source, plus the one read of
`m.runningTask` that the source performs WITHOUT the lock (main.go:163).
Goroutines spawned with `go m.processQueue()` are tracked explicitly by their
control point, because several of them can be in flight at once.
-/

namespace MockComfy

/-- Documents passed through the API: the Go values built from
`map[string]interface{}`, `gin.H`, `[]interface{}`, strings, booleans and
integers, as rendered by `c.JSON`. -/
inductive JValue where
  | null : JValue
  | str : String → JValue
  | bool : Bool → JValue
  | num : Nat → JValue
  | arr : List JValue → JValue
  | obj : List (String × JValue) → JValue

/-- Job status; the source stores the strings "pending", "processing",
"completed" (main.go:69,157,180). -/
inductive Status where
  | pending : Status
  | processing : Status
  | completed : Status
deriving DecidableEq

/-- Translation of `PromptInfo` (main.go:16-23).  `Output` is Go-`nil` until
set, hence an `Option`; `ID` is the sequence number copied from `queueID`. -/
structure PromptInfo where
  prompt : JValue
  clientID : String
  status : Status
  output : Option JValue
  id : Nat
  promptID : String

/-- Control point of one in-flight `processQueue` goroutine:
`started` = spawned by `go m.processQueue()`, before the lock at main.go:148;
`afterSelect` = past the first critical section (main.go:148-161) without the
early return, i.e. about to read `m.runningTask` at main.go:163;
`processing pid` = read `m.runningTask = pid` at main.go:163-164 and entered
`processPrompt`, i.e. sleeping or about to run main.go:177-188;
`afterProcess pid` = returned from `processPrompt`, about to run the critical
section main.go:165-167. -/
inductive WorkerPhase where
  | started : WorkerPhase
  | afterSelect : WorkerPhase
  | processing : String → WorkerPhase
  | afterProcess : String → WorkerPhase
deriving DecidableEq

/-- Translation of `ComfyUIMock` (main.go:25-30).  The Go map `prompts` is an
association list with (in every reachable state) pairwise distinct keys;
`workers` records the control points of the in-flight `processQueue`
goroutines; `log` records the lines printed by `fmt.Printf` (main.go:186). -/
structure ComfyUIMock where
  prompts : List (String × PromptInfo)
  queueID : Nat
  runningTask : Option String
  workers : List WorkerPhase
  log : List String

/-- Translation of `NewComfyUIMock` (main.go:32-37). -/
def init : ComfyUIMock := ⟨[], 0, none, [], []⟩

/-- Lookup in the job table, the read `m.prompts[promptID]`. -/
def lookupPrompt : List (String × PromptInfo) → String → Option PromptInfo
  | [], _ => none
  | (k, v) :: rest, pid => if k = pid then some v else lookupPrompt rest pid

/-- Status of the job stored under `pid`, if any. -/
def statusOf (l : List (String × PromptInfo)) (pid : String) : Option Status :=
  (lookupPrompt l pid).map PromptInfo.status

/-- In-place mutation of the table entry for `pid`: the Go code mutates the
`*PromptInfo` the map points to, which is exactly a keyed update here. -/
def updatePrompt (l : List (String × PromptInfo)) (pid : String)
    (f : PromptInfo → PromptInfo) : List (String × PromptInfo) :=
  l.map fun pr => if pr.1 = pid then (pr.1, f pr.2) else pr

/-- The critical section of `handlePrompt` (main.go:64-74) followed by the
`go m.processQueue()` spawn (main.go:76) and the 200 response (main.go:78).
`pid` stands for the value of `generatePromptID()` (main.go:62). -/
def handlePrompt (s : ComfyUIMock) (pid cid : String) (payload : JValue) :
    ComfyUIMock × (Nat × JValue) :=
  ({ s with
      queueID := s.queueID + 1
      prompts := s.prompts ++ [(pid, ⟨payload, cid, .pending, none, s.queueID + 1, pid⟩)]
      workers := .started :: s.workers },
   (200, .obj [("prompt_id", .str pid)]))

/-- The mutation `prompt.Status = "processing"` (main.go:157). -/
def setProcessing (info : PromptInfo) : PromptInfo :=
  { info with status := .processing }

/-- First critical section of `processQueue` (main.go:148-161), in the run
where `runningTask` is nil and the range loop finds the pending job `pid`:
set it running and processing (main.go:156-157), fall through to line 163. -/
def processQueuePick (s : ComfyUIMock) (pid : String) : ComfyUIMock :=
  { s with
      runningTask := some pid
      prompts := updatePrompt s.prompts pid setProcessing
      workers := .afterSelect :: s.workers.erase .started }

/-- First critical section of `processQueue` when `runningTask` is nil and no
job is pending: nothing is selected, the goroutine still falls through to the
read at main.go:163. -/
def processQueueNoPick (s : ComfyUIMock) : ComfyUIMock :=
  { s with workers := .afterSelect :: s.workers.erase .started }

/-- First critical section of `processQueue` when `runningTask` is non-nil:
the goroutine returns at main.go:151. -/
def processQueueBusy (s : ComfyUIMock) : ComfyUIMock :=
  { s with workers := s.workers.erase .started }

/-- The unlocked read `m.runningTask` at main.go:163 observing nil: the
goroutine returns. -/
def processQueueReadNil (s : ComfyUIMock) : ComfyUIMock :=
  { s with workers := s.workers.erase .afterSelect }

/-- The unlocked read `m.runningTask` at main.go:163-164 observing `pid`: the
goroutine calls `m.processPrompt` on that pointer. -/
def processQueueReadSome (s : ComfyUIMock) (pid : String) : ComfyUIMock :=
  { s with workers := .processing pid :: s.workers.erase .afterSelect }

/-- Translation of `generateMockOutput` (main.go:190-202). -/
def generateMockOutput (promptID : String) : JValue :=
  .obj [("9", .obj [("images", .arr [.obj
    [("filename", .str (promptID.take 8 ++ ".png")),
     ("subfolder", .str ""),
     ("type", .str "output")]])])]

/-- The line printed by `fmt.Printf` when `copyAndRenameImage` fails
(main.go:186). -/
def copyErrorLog : String := "error while copying and renaming image"

/-- The mutations `prompt.Status = "completed"` and
`prompt.Output = generateMockOutput(prompt.PromptID)` (main.go:180-181). -/
def completeInfo (info : PromptInfo) : PromptInfo :=
  { info with status := .completed, output := some (generateMockOutput info.promptID) }

/-- The critical section of `processPrompt` (main.go:177-188), entered after
the simulated sleep: set the job completed, store its output, attempt the
artifact copy and log on failure.  `copyFails` abstracts the outcome of
`copyAndRenameImage` (modelled over a filesystem below). -/
def processPrompt (s : ComfyUIMock) (pid : String) (copyFails : Bool) : ComfyUIMock :=
  { s with
      prompts := updatePrompt s.prompts pid completeInfo
      workers := .afterProcess pid :: s.workers.erase (.processing pid)
      log := if copyFails then s.log ++ [copyErrorLog] else s.log }

/-- The critical section main.go:165-167 plus the respawn `go m.processQueue()`
at main.go:168: clear `runningTask` unconditionally and spawn a fresh
goroutine. -/
def processQueueFinish (s : ComfyUIMock) (pid : String) : ComfyUIMock :=
  { s with
      runningTask := none
      workers := .started :: s.workers.erase (.afterProcess pid) }

/-- Body of the 404 response of `handleHistory` (main.go:89). -/
def notFoundBody : JValue := .obj [("error", .str "Prompt not found")]

/-- Body of the 200 response of `handleHistory` for a completed job
(main.go:98-111). -/
def historySuccessBody (pid : String) (info : PromptInfo) : JValue :=
  .obj [(pid, .obj
    [("prompt", info.prompt),
     ("outputs", match info.output with | some o => o | none => .null),
     ("status", .obj
       [("status_str", .str "success"),
        ("completed", .bool true),
        ("messages", .arr
          [.arr [.str "execution_start", .obj [("prompt_id", .str pid)]],
           .arr [.str "execution_cached", .obj
             [("nodes", .arr [.str "4", .str "7", .str "5", .str "6"]),
              ("prompt_id", .str pid)]]])])])]

/-- Translation of `handleHistory` (main.go:81-112): response (HTTP status and
body) paired with the server state after the handler, which the handler never
writes. -/
def handleHistory (s : ComfyUIMock) (pid : String) : (Nat × JValue) × ComfyUIMock :=
  match lookupPrompt s.prompts pid with
  | none => ((404, notFoundBody), s)
  | some info =>
    if info.status ≠ .completed then ((200, .obj []), s)
    else ((200, historySuccessBody pid info), s)

/-- One entry of the queue lists (main.go:122-127 and 132-137). -/
def queueTuple (info : PromptInfo) : JValue :=
  .arr [.num info.id, .str info.promptID, info.prompt, .arr [.str "9"]]

/-- The `queue_running` list built by `handleQueue` (main.go:121-128): at most
the one entry for `m.runningTask`. -/
def queueRunningList (s : ComfyUIMock) : List JValue :=
  match s.runningTask with
  | none => []
  | some pid =>
    match lookupPrompt s.prompts pid with
    | some info => [queueTuple info]
    | none => []

/-- The `queue_pending` list built by `handleQueue` (main.go:130-139): every
job whose status is pending. -/
def queuePendingList (s : ComfyUIMock) : List JValue :=
  (s.prompts.filter fun pr => pr.2.status = Status.pending).map fun pr => queueTuple pr.2

/-- Translation of `handleQueue` (main.go:114-145): response paired with the
unchanged server state. -/
def handleQueue (s : ComfyUIMock) : (Nat × JValue) × ComfyUIMock :=
  ((200, .obj [("queue_running", .arr (queueRunningList s)),
               ("queue_pending", .arr (queuePendingList s))]), s)

/-- Number of jobs whose status is `processing`. -/
def processingCount (s : ComfyUIMock) : Nat :=
  (s.prompts.filter fun pr => pr.2.status = Status.processing).length

/-- One atomic step of the system.  Each constructor is one lock-protected
critical section of main.go (or the one unlocked read at main.go:163).  In
`submit`, `pid` stands for the fresh `generatePromptID()` value: freshness
models UUID uniqueness (spec §3) and `8 ≤ pid.length` records that
`uuid.New().String()` is a 36-character string, which the slices
`promptID[:8]` at main.go:195 and main.go:211 rely on (theorem
`uuidString_length` below). -/
inductive Step : ComfyUIMock → ComfyUIMock → Prop where
  | submit (s : ComfyUIMock) (pid cid : String) (payload : JValue)
      (hfresh : ∀ pr ∈ s.prompts, pr.1 ≠ pid) (hlen : 8 ≤ pid.length) :
      Step s (handlePrompt s pid cid payload).1
  | pick (s : ComfyUIMock) (pid : String)
      (hw : WorkerPhase.started ∈ s.workers) (hrun : s.runningTask = none)
      (hpending : statusOf s.prompts pid = some .pending) :
      Step s (processQueuePick s pid)
  | noPick (s : ComfyUIMock)
      (hw : WorkerPhase.started ∈ s.workers) (hrun : s.runningTask = none)
      (hnone : ∀ pr ∈ s.prompts, pr.2.status ≠ Status.pending) :
      Step s (processQueueNoPick s)
  | busy (s : ComfyUIMock) (pid : String)
      (hw : WorkerPhase.started ∈ s.workers) (hrun : s.runningTask = some pid) :
      Step s (processQueueBusy s)
  | readNil (s : ComfyUIMock)
      (hw : WorkerPhase.afterSelect ∈ s.workers) (hrun : s.runningTask = none) :
      Step s (processQueueReadNil s)
  | readSome (s : ComfyUIMock) (pid : String)
      (hw : WorkerPhase.afterSelect ∈ s.workers) (hrun : s.runningTask = some pid) :
      Step s (processQueueReadSome s pid)
  | complete (s : ComfyUIMock) (pid : String) (copyFails : Bool)
      (hw : WorkerPhase.processing pid ∈ s.workers) :
      Step s (processPrompt s pid copyFails)
  | finish (s : ComfyUIMock) (pid : String)
      (hw : WorkerPhase.afterProcess pid ∈ s.workers) :
      Step s (processQueueFinish s pid)

/-- States reachable from the freshly constructed server. -/
def Reachable (s : ComfyUIMock) : Prop :=
  Relation.ReflTransGen Step init s

/-- Minimal filesystem model for `copyAndRenameImage`: a set of existing
directories and a map from path to file content. -/
structure FS where
  dirs : List String
  files : List (String × String)

/-- File content stored at a path, if the file exists. -/
def FS.read : List (String × String) → String → Option String
  | [], _ => none
  | (p, c) :: rest, path => if p = path then some c else FS.read rest path

/-- Translation of `copyAndRenameImage` (main.go:208-240) over the filesystem
model: build the destination path `filepath.Join("outputs", "output_"+id[:8]+".jpg")`,
ensure the output directory exists (`os.MkdirAll`, main.go:215), open the
fixed source asset (fails when absent, main.go:220-223), create the
destination and copy the content (main.go:227-237). -/
def copyAndRenameImage (fs : FS) (promptID : String) : FS × Except String Unit :=
  let sourcePath := "resources/image.jpg"
  let outputDir := "outputs"
  let newFileName := "output_" ++ promptID.take 8 ++ ".jpg"
  let destPath := outputDir ++ "/" ++ newFileName
  let fs1 : FS := { fs with dirs := if outputDir ∈ fs.dirs then fs.dirs else outputDir :: fs.dirs }
  match FS.read fs1.files sourcePath with
  | none => (fs1, .error "failed to open source file")
  | some content => ({ fs1 with files := (destPath, content) :: fs1.files }, .ok ())

/-- Destination path computed by `copyAndRenameImage` (main.go:209-212). -/
def copyDestPath (promptID : String) : String :=
  "outputs" ++ "/" ++ ("output_" ++ promptID.take 8 ++ ".jpg")

/-- Lower-case hex digit, as produced by the `encodeHex` routine of the
`github.com/google/uuid` package. -/
def hexChar (n : Nat) : Char :=
  if n < 10 then Char.ofNat (48 + n) else Char.ofNat (87 + n)

/-- Two-character lower-case hex rendering of one byte. -/
def hex2 (b : Nat) : List Char :=
  [hexChar (b / 16 % 16), hexChar (b % 16)]

/-- Modelled from the behaviour of the `github.com/google/uuid` dependency
(not part of this repository): `uuid.New().String()`, called by
`generatePromptID` (main.go:204-206), renders 16 random bytes as the
8-4-4-4-12 lower-case hex string `xxxxxxxx-xxxx-xxxx-xxxx-xxxxxxxxxxxx`. -/
def uuidString (b : Fin 16 → Nat) : String :=
  ⟨hex2 (b 0) ++ hex2 (b 1) ++ hex2 (b 2) ++ hex2 (b 3) ++ ['-'] ++
   hex2 (b 4) ++ hex2 (b 5) ++ ['-'] ++
   hex2 (b 6) ++ hex2 (b 7) ++ ['-'] ++
   hex2 (b 8) ++ hex2 (b 9) ++ ['-'] ++
   hex2 (b 10) ++ hex2 (b 11) ++ hex2 (b 12) ++ hex2 (b 13) ++ hex2 (b 14) ++ hex2 (b 15)⟩

/-- Semantics of the Go slice `s[:n]`: it panics when `n` exceeds the length; otherwise it is the
`n`-character prefix. -/
def goStringSlice (s : String) (n : Nat) : Option String :=
  if n ≤ s.length then some (s.take n) else none

/-- Modelled from the words of the spec (§6, `GET /history/{prompt_id}`): the
fixed-shape success record `{ <prompt_id>: { prompt, outputs, status:
{ status_str: "success", completed: true, messages: [["execution_start",
{prompt_id}], ["execution_cached", {nodes: ["4","7","5","6"], prompt_id}]] } } }`,
with the originally submitted payload as `prompt` and the stored result as
`outputs`. -/
def specHistoryRecord (pid : String) (info : PromptInfo) : JValue :=
  .obj [(pid, .obj
    [("prompt", info.prompt),
     ("outputs", match info.output with | some o => o | none => .null),
     ("status", .obj
       [("status_str", .str "success"),
        ("completed", .bool true),
        ("messages", .arr
          [.arr [.str "execution_start", .obj [("prompt_id", .str pid)]],
           .arr [.str "execution_cached", .obj
             [("nodes", .arr [.str "4", .str "7", .str "5", .str "6"]),
              ("prompt_id", .str pid)]]])])])]

/-- Modelled from the words of the spec (§6, output collaborator contract): the
result document `{"9": {"images": [{"filename": "<first-8>.png",
"subfolder": "", "type": "output"}]}}`. -/
def specResultDoc (pid8 : String) : JValue :=
  .obj [("9", .obj [("images", .arr [.obj
    [("filename", .str (pid8 ++ ".png")),
     ("subfolder", .str ""),
     ("type", .str "output")]])])]

/-- Concrete prompt ids used in the executions below (all 36 characters,
the shape `generatePromptID` produces). -/
def pid1 : String := "00000000-0000-4000-8000-000000000001"

def pid2 : String := "00000000-0000-4000-8000-000000000002"

def pid3 : String := "00000000-0000-4000-8000-000000000003"

def pid4 : String := "00000000-0000-4000-8000-000000000004"

/-
A concrete execution.  `u1`-`u4` exhibit the window in which a completed job
is still the running task (the lock is released between main.go:188 and
main.go:165); `u5`-`u18` continue into the race in which a goroutine that
found nothing to do adopts the task of another goroutine through the unlocked read
at main.go:163 and later clears the running marker (main.go:166) while a
third job is processing, after which a fourth job is picked concurrently.
-/

/-- Submission of job 1. -/
def u1 : ComfyUIMock := (handlePrompt init pid1 "c1" .null).1

/-- Goroutine A picks job 1. -/
def u2 : ComfyUIMock := processQueuePick u1 pid1

/-- Goroutine A reads `runningTask = job 1` at main.go:163. -/
def u3 : ComfyUIMock := processQueueReadSome u2 pid1

/-- Goroutine A completes job 1 (main.go:177-188); the running marker still
points at the now-completed job. -/
def u4 : ComfyUIMock := processPrompt u3 pid1 false

/-- Goroutine A clears the marker and respawns (goroutine B). -/
def u5 : ComfyUIMock := processQueueFinish u4 pid1

/-- Goroutine B finds nothing pending and falls through to main.go:163. -/
def u6 : ComfyUIMock := processQueueNoPick u5

/-- Submission of job 2 (spawns goroutine C). -/
def u7 : ComfyUIMock := (handlePrompt u6 pid2 "c2" .null).1

/-- Goroutine C picks job 2. -/
def u8 : ComfyUIMock := processQueuePick u7 pid2

/-- Goroutine B, still at main.go:163, reads `runningTask = job 2` and adopts
it: this read is performed without the lock. -/
def u9 : ComfyUIMock := processQueueReadSome u8 pid2

/-- Goroutine C also reads `runningTask = job 2`; two goroutines now run
`processPrompt` on the same job. -/
def u10 : ComfyUIMock := processQueueReadSome u9 pid2

/-- Goroutine B completes job 2. -/
def u11 : ComfyUIMock := processPrompt u10 pid2 false

/-- Goroutine B clears the marker and respawns (goroutine D). -/
def u12 : ComfyUIMock := processQueueFinish u11 pid2

/-- Submission of job 3. -/
def u13 : ComfyUIMock := (handlePrompt u12 pid3 "c3" .null).1

/-- Goroutine D picks job 3: job 3 is `processing`, `runningTask = job 3`. -/
def u14 : ComfyUIMock := processQueuePick u13 pid3

/-- Goroutine C wakes and re-completes job 2 (main.go:177-188). -/
def u15 : ComfyUIMock := processPrompt u14 pid2 false

/-- Goroutine C runs main.go:165-167 and clears the running marker even
though it now belongs to job 3, which is still `processing`. -/
def u16 : ComfyUIMock := processQueueFinish u15 pid2

/-- Submission of job 4. -/
def u17 : ComfyUIMock := (handlePrompt u16 pid4 "c4" .null).1

/-- With the marker wrongly nil, job 4 is picked while job 3 is still
`processing`: two jobs are `processing` at once. -/
def u18 : ComfyUIMock := processQueuePick u17 pid4

/-- The table entry for job 1 in `u1` (just submitted). -/
def infoPending1 : PromptInfo := ⟨.null, "c1", .pending, none, 1, pid1⟩

/-- The table entry for job 1 in `u2` and `u3` (picked, processing). -/
def infoProcessing1 : PromptInfo := ⟨.null, "c1", .processing, none, 1, pid1⟩

/-- The table entry for job 1 in `u4` (completed, output stored). -/
def infoCompleted1 : PromptInfo :=
  ⟨.null, "c1", .completed, some (generateMockOutput pid1), 1, pid1⟩

/-- A filesystem on which the source asset exists. -/
def fsWithAsset : FS := ⟨[], [("resources/image.jpg", "asset-bytes")]⟩

section TableLemmas

theorem lookupPrompt_mem {l : List (String × PromptInfo)} {pid : String}
    {info : PromptInfo} (h : lookupPrompt l pid = some info) : (pid, info) ∈ l := by
  induction l with
  | nil => simp [lookupPrompt] at h
  | cons hd tl ih =>
    obtain ⟨k, v⟩ := hd
    by_cases hk : k = pid
    · subst hk
      simp [lookupPrompt] at h
      subst h
      exact List.mem_cons_self _ _
    · simp [lookupPrompt, hk] at h
      exact List.mem_cons_of_mem _ (ih h)

theorem lookupPrompt_eq_some_of_mem {l : List (String × PromptInfo)} {pid : String}
    {info : PromptInfo} (hnd : (l.map Prod.fst).Nodup) (h : (pid, info) ∈ l) :
    lookupPrompt l pid = some info := by
  induction l with
  | nil => simp at h
  | cons hd tl ih =>
    obtain ⟨k, v⟩ := hd
    simp only [List.map_cons, List.nodup_cons] at hnd
    rcases List.mem_cons.mp h with heq | hmem
    · cases heq
      simp [lookupPrompt]
    · have hk : k ≠ pid := by
        intro hkk
        subst hkk
        exact hnd.1 (List.mem_map.mpr ⟨(k, info), hmem, rfl⟩)
      simp [lookupPrompt, hk]
      exact ih hnd.2 hmem

theorem lookupPrompt_eq_none {l : List (String × PromptInfo)} {pid : String}
    (h : ∀ pr ∈ l, pr.1 ≠ pid) : lookupPrompt l pid = none := by
  induction l with
  | nil => rfl
  | cons hd tl ih =>
    have hhd : hd.1 ≠ pid := h hd (List.mem_cons_self _ _)
    simp [lookupPrompt, hhd]
    exact ih fun pr hpr => h pr (List.mem_cons_of_mem _ hpr)

theorem lookupPrompt_append_left {l l' : List (String × PromptInfo)} {pid : String}
    {info : PromptInfo} (h : lookupPrompt l pid = some info) :
    lookupPrompt (l ++ l') pid = some info := by
  induction l with
  | nil => simp [lookupPrompt] at h
  | cons hd tl ih =>
    obtain ⟨k, v⟩ := hd
    by_cases hk : k = pid
    · subst hk
      simp [lookupPrompt] at h ⊢
      exact h
    · simp [lookupPrompt, hk] at h ⊢
      exact ih h

theorem lookupPrompt_append_of_none {l l' : List (String × PromptInfo)} {pid : String}
    (h : lookupPrompt l pid = none) :
    lookupPrompt (l ++ l') pid = lookupPrompt l' pid := by
  induction l with
  | nil => rfl
  | cons hd tl ih =>
    obtain ⟨k, v⟩ := hd
    by_cases hk : k = pid
    · subst hk
      simp [lookupPrompt] at h
    · simp [lookupPrompt, hk] at h ⊢
      exact ih h

theorem keys_updatePrompt (l : List (String × PromptInfo)) (pid : String)
    (f : PromptInfo → PromptInfo) :
    (updatePrompt l pid f).map Prod.fst = l.map Prod.fst := by
  induction l with
  | nil => rfl
  | cons hd tl ih =>
    by_cases hk : hd.1 = pid
    · simp [updatePrompt, hk] at ih ⊢
      exact ih
    · simp [updatePrompt, hk] at ih ⊢
      exact ih

theorem lookupPrompt_cons (k : String) (v : PromptInfo)
    (l : List (String × PromptInfo)) (pid : String) :
    lookupPrompt ((k, v) :: l) pid = if k = pid then some v else lookupPrompt l pid := rfl

theorem updatePrompt_cons (k : String) (v : PromptInfo)
    (l : List (String × PromptInfo)) (pid : String) (f : PromptInfo → PromptInfo) :
    updatePrompt ((k, v) :: l) pid f =
      (if k = pid then (k, f v) else (k, v)) :: updatePrompt l pid f := by
  by_cases hk : k = pid <;> simp [updatePrompt, hk]

theorem lookupPrompt_updatePrompt (l : List (String × PromptInfo)) (pid q : String)
    (f : PromptInfo → PromptInfo) :
    lookupPrompt (updatePrompt l pid f) q =
      if q = pid then (lookupPrompt l pid).map f else lookupPrompt l q := by
  induction l with
  | nil => by_cases hq : q = pid <;> simp [updatePrompt, lookupPrompt, hq]
  | cons hd tl ih =>
    obtain ⟨k, v⟩ := hd
    rw [updatePrompt_cons]
    by_cases hk : k = pid
    · subst hk
      by_cases hq : q = k
      · subst hq
        simp [lookupPrompt_cons]
      · have hk2 : k ≠ q := fun h => hq h.symm
        simp [lookupPrompt_cons, hk2, hq, ih]
    · by_cases hq : q = pid
      · subst hq
        have hk2 : k ≠ q := hk
        simp [lookupPrompt_cons, hk2, hk, ih]
      · by_cases hkq : k = q
        · subst hkq
          simp [lookupPrompt_cons, hk, hq]
        · simp [lookupPrompt_cons, hk, hkq, hq, ih]

theorem mem_updatePrompt {l : List (String × PromptInfo)} {pid : String}
    {f : PromptInfo → PromptInfo} {pr : String × PromptInfo}
    (h : pr ∈ updatePrompt l pid f) :
    ∃ q ∈ l, pr = if q.1 = pid then (q.1, f q.2) else q := by
  rcases List.mem_map.mp h with ⟨q, hq, hmap⟩
  exact ⟨q, hq, hmap.symm⟩

end TableLemmas

/-- Invariant of the reachable states: table keys are the own ids of the jobs and
are pairwise distinct, a job has an output exactly when it is completed, the
running marker points at a stored, non-pending job, and sequence numbers are
bounded by the counter and pairwise distinct. -/
structure Inv (s : ComfyUIMock) : Prop where
  keysConsistent : ∀ pr ∈ s.prompts, pr.2.promptID = pr.1
  keysNodup : (s.prompts.map Prod.fst).Nodup
  resultIffCompleted : ∀ pr ∈ s.prompts, (pr.2.status = Status.completed ↔ pr.2.output.isSome)
  runningNotPending : ∀ p, s.runningTask = some p →
    ∃ info, lookupPrompt s.prompts p = some info ∧ info.status ≠ Status.pending
  idsBound : ∀ pr ∈ s.prompts, pr.2.id ≤ s.queueID
  idsNodup : (s.prompts.map fun pr => pr.2.id).Nodup

theorem inv_init : Inv init := by
  constructor <;> simp [init]

theorem ids_updatePrompt (l : List (String × PromptInfo)) (pid : String)
    (f : PromptInfo → PromptInfo) (hf : ∀ i, (f i).id = i.id) :
    (updatePrompt l pid f).map (fun pr => pr.2.id) = l.map fun pr => pr.2.id := by
  induction l with
  | nil => rfl
  | cons hd tl ih =>
    obtain ⟨k, v⟩ := hd
    rw [updatePrompt_cons]
    by_cases hk : k = pid <;> simp [hk, hf, ih]

theorem inv_submit {s : ComfyUIMock} (inv : Inv s) (pid cid : String) (payload : JValue)
    (hfresh : ∀ pr ∈ s.prompts, pr.1 ≠ pid) :
    Inv (handlePrompt s pid cid payload).1 := by
  have hkeys : pid ∉ s.prompts.map Prod.fst := by
    intro hmem
    rcases List.mem_map.mp hmem with ⟨pr, hpr, heq⟩
    exact hfresh pr hpr heq
  constructor
  · intro pr hpr
    rcases List.mem_append.mp hpr with h | h
    · exact inv.keysConsistent pr h
    · simp at h
      subst h
      rfl
  · simp only [handlePrompt, List.map_append, List.map_cons, List.map_nil]
    rw [← List.concat_eq_append]
    exact inv.keysNodup.concat hkeys
  · intro pr hpr
    rcases List.mem_append.mp hpr with h | h
    · exact inv.resultIffCompleted pr h
    · simp at h
      subst h
      simp
  · intro p hp
    rcases inv.runningNotPending p hp with ⟨info, hlook, hst⟩
    exact ⟨info, lookupPrompt_append_left hlook, hst⟩
  · intro pr hpr
    rcases List.mem_append.mp hpr with h | h
    · exact Nat.le_succ_of_le (inv.idsBound pr h)
    · simp at h
      subst h
      rfl
  · simp only [handlePrompt, List.map_append, List.map_cons, List.map_nil]
    rw [← List.concat_eq_append]
    refine inv.idsNodup.concat ?_
    intro hmem
    rcases List.mem_map.mp hmem with ⟨pr, hpr, heq⟩
    exact absurd heq (Nat.ne_of_lt (Nat.lt_succ_of_le (inv.idsBound pr hpr)))

theorem forall_mem_updatePrompt {P : String × PromptInfo → Prop}
    {l : List (String × PromptInfo)} {pid : String} {f : PromptInfo → PromptInfo}
    (hP : ∀ pr ∈ l, P pr) (hf : ∀ pr ∈ l, pr.1 = pid → P (pr.1, f pr.2)) :
    ∀ pr ∈ updatePrompt l pid f, P pr := by
  intro pr hpr
  rcases mem_updatePrompt hpr with ⟨q, hq, heq⟩
  by_cases hk : q.1 = pid
  · rw [if_pos hk] at heq
    rw [heq]
    exact hf q hq hk
  · rw [if_neg hk] at heq
    rw [heq]
    exact hP q hq

theorem inv_pick {s : ComfyUIMock} (inv : Inv s) (pid : String)
    (hpending : statusOf s.prompts pid = some .pending) :
    Inv (processQueuePick s pid) := by
  rcases Option.map_eq_some'.mp hpending with ⟨info, hlook, hst⟩
  constructor
  · exact forall_mem_updatePrompt inv.keysConsistent
      fun pr hpr hk => inv.keysConsistent pr hpr
  · simp only [processQueuePick]
    rw [keys_updatePrompt]
    exact inv.keysNodup
  · refine forall_mem_updatePrompt inv.resultIffCompleted ?_
    intro pr hpr hk
    have hq2 : pr.2 = info := by
      have hlk := @lookupPrompt_eq_some_of_mem s.prompts pid pr.2 inv.keysNodup
        (by rw [← hk]; exact hpr)
      rw [hlook] at hlk
      exact (Option.some.inj hlk).symm
    have hout : pr.2.output.isSome = false := by
      rcases hq3 : pr.2.output with _ | o
      · rfl
      · exfalso
        have hc := (inv.resultIffCompleted pr hpr).mpr (by simp [hq3])
        rw [hq2, hst] at hc
        cases hc
    simp [setProcessing, hout]
  · intro p hp
    simp only [processQueuePick] at hp ⊢
    cases hp
    refine ⟨setProcessing info, ?_, by simp [setProcessing]⟩
    rw [lookupPrompt_updatePrompt]
    simp [hlook]
  · refine forall_mem_updatePrompt inv.idsBound fun pr hpr hk => inv.idsBound pr hpr
  · simp only [processQueuePick]
    rw [ids_updatePrompt s.prompts pid setProcessing fun i => rfl]
    exact inv.idsNodup

theorem inv_complete {s : ComfyUIMock} (inv : Inv s) (pid : String) (copyFails : Bool) :
    Inv (processPrompt s pid copyFails) := by
  constructor
  · exact forall_mem_updatePrompt inv.keysConsistent
      fun pr hpr hk => inv.keysConsistent pr hpr
  · simp only [processPrompt]
    rw [keys_updatePrompt]
    exact inv.keysNodup
  · refine forall_mem_updatePrompt inv.resultIffCompleted ?_
    intro pr hpr hk
    simp [completeInfo]
  · intro p hp
    simp only [processPrompt] at hp ⊢
    rcases inv.runningNotPending p hp with ⟨info, hlook, hst⟩
    by_cases hq : p = pid
    · subst hq
      refine ⟨completeInfo info, ?_, by simp [completeInfo]⟩
      rw [lookupPrompt_updatePrompt]
      simp [hlook]
    · refine ⟨info, ?_, hst⟩
      rw [lookupPrompt_updatePrompt]
      simp [hq, hlook]
  · refine forall_mem_updatePrompt inv.idsBound fun pr hpr hk => inv.idsBound pr hpr
  · simp only [processPrompt]
    rw [ids_updatePrompt s.prompts pid completeInfo fun i => rfl]
    exact inv.idsNodup

theorem inv_step {s s' : ComfyUIMock} (inv : Inv s) (hstep : Step s s') : Inv s' := by
  cases hstep with
  | submit pid cid payload hfresh hlen => exact inv_submit inv pid cid payload hfresh
  | pick pid hw hrun hpending => exact inv_pick inv pid hpending
  | noPick hw hrun hnone =>
    exact ⟨inv.keysConsistent, inv.keysNodup, inv.resultIffCompleted,
      inv.runningNotPending, inv.idsBound, inv.idsNodup⟩
  | busy pid hw hrun =>
    exact ⟨inv.keysConsistent, inv.keysNodup, inv.resultIffCompleted,
      inv.runningNotPending, inv.idsBound, inv.idsNodup⟩
  | readNil hw hrun =>
    exact ⟨inv.keysConsistent, inv.keysNodup, inv.resultIffCompleted,
      inv.runningNotPending, inv.idsBound, inv.idsNodup⟩
  | readSome pid hw hrun =>
    exact ⟨inv.keysConsistent, inv.keysNodup, inv.resultIffCompleted,
      inv.runningNotPending, inv.idsBound, inv.idsNodup⟩
  | complete pid copyFails hw => exact inv_complete inv pid copyFails
  | finish pid hw =>
    exact ⟨inv.keysConsistent, inv.keysNodup, inv.resultIffCompleted,
      (by intro p hp; cases hp), inv.idsBound, inv.idsNodup⟩

theorem inv_reachable {s : ComfyUIMock} (h : Reachable s) : Inv s := by
  induction h with
  | refl => exact inv_init
  | tail hr hs ih => exact inv_step ih hs

section QueryLemmas

theorem handleHistory_resp_congr {s1 s2 : ComfyUIMock}
    (h : s1.prompts = s2.prompts) (pid : String) :
    (handleHistory s1 pid).1 = (handleHistory s2 pid).1 := by
  unfold handleHistory
  rw [h]
  cases lookupPrompt s2.prompts pid with
  | none => rfl
  | some info =>
    dsimp only
    split <;> rfl

theorem handleQueue_resp_congr {s1 s2 : ComfyUIMock}
    (hp : s1.prompts = s2.prompts) (hr : s1.runningTask = s2.runningTask) :
    (handleQueue s1).1 = (handleQueue s2).1 := by
  unfold handleQueue queueRunningList queuePendingList
  rw [hp, hr]

theorem handleHistory_state (s : ComfyUIMock) (pid : String) :
    (handleHistory s pid).2 = s := by
  unfold handleHistory
  cases hl : lookupPrompt s.prompts pid with
  | none => rfl
  | some info =>
    dsimp only
    split <;> rfl

theorem entry_eq_of_keys_eq {l : List (String × PromptInfo)}
    (hnd : (l.map Prod.fst).Nodup) {pr q : String × PromptInfo}
    (h1 : pr ∈ l) (h2 : q ∈ l) (hk : pr.1 = q.1) : pr = q := by
  have e1 : lookupPrompt l pr.1 = some pr.2 :=
    lookupPrompt_eq_some_of_mem hnd (by simpa using h1)
  have e2 : lookupPrompt l q.1 = some q.2 :=
    lookupPrompt_eq_some_of_mem hnd (by simpa using h2)
  rw [hk, e2] at e1
  exact Prod.ext hk (Option.some.inj e1).symm

theorem queueTuple_inj_promptID {a b : PromptInfo}
    (h : queueTuple a = queueTuple b) : a.promptID = b.promptID := by
  simp only [queueTuple, JValue.arr.injEq, List.cons.injEq, JValue.num.injEq,
    JValue.str.injEq, and_true] at h
  exact h.2.1

theorem mem_queuePendingList {s : ComfyUIMock} {t : JValue} :
    t ∈ queuePendingList s ↔
      ∃ pr, pr ∈ s.prompts ∧ pr.2.status = Status.pending ∧ t = queueTuple pr.2 := by
  constructor
  · intro ht
    rcases List.mem_map.mp ht with ⟨pr, hpr, heq⟩
    rcases List.mem_filter.mp hpr with ⟨hmem, hst⟩
    exact ⟨pr, hmem, by simpa using hst, heq.symm⟩
  · rintro ⟨pr, hmem, hst, rfl⟩
    exact List.mem_map.mpr ⟨pr, List.mem_filter.mpr ⟨hmem, by simpa using hst⟩, rfl⟩

theorem mem_queueRunningList {s : ComfyUIMock} {t : JValue}
    (h : t ∈ queueRunningList s) :
    ∃ p info, s.runningTask = some p ∧ lookupPrompt s.prompts p = some info ∧
      t = queueTuple info := by
  unfold queueRunningList at h
  cases hr : s.runningTask with
  | none =>
    rw [hr] at h
    cases h
  | some p =>
    rw [hr] at h
    dsimp only at h
    cases hl : lookupPrompt s.prompts p with
    | none =>
      rw [hl] at h
      cases h
    | some info =>
      rw [hl] at h
      exact ⟨p, info, rfl, hl, List.mem_singleton.mp h⟩

end QueryLemmas

section Traces

theorem reach_u1 : Reachable u1 :=
  Relation.ReflTransGen.single
    (Step.submit init pid1 "c1" .null (by decide) (by decide))

theorem reach_u2 : Reachable u2 :=
  reach_u1.tail (Step.pick u1 pid1 (by decide) (by decide) (by decide))

theorem reach_u3 : Reachable u3 :=
  reach_u2.tail (Step.readSome u2 pid1 (by decide) (by decide))

theorem reach_u4 : Reachable u4 :=
  reach_u3.tail (Step.complete u3 pid1 false (by decide))

theorem reach_u5 : Reachable u5 :=
  reach_u4.tail (Step.finish u4 pid1 (by decide))

theorem reach_u6 : Reachable u6 :=
  reach_u5.tail (Step.noPick u5 (by decide) (by decide) (by decide))

theorem reach_u7 : Reachable u7 :=
  reach_u6.tail (Step.submit u6 pid2 "c2" .null (by decide) (by decide))

theorem reach_u8 : Reachable u8 :=
  reach_u7.tail (Step.pick u7 pid2 (by decide) (by decide) (by decide))

theorem reach_u9 : Reachable u9 :=
  reach_u8.tail (Step.readSome u8 pid2 (by decide) (by decide))

theorem reach_u10 : Reachable u10 :=
  reach_u9.tail (Step.readSome u9 pid2 (by decide) (by decide))

theorem reach_u11 : Reachable u11 :=
  reach_u10.tail (Step.complete u10 pid2 false (by decide))

theorem reach_u12 : Reachable u12 :=
  reach_u11.tail (Step.finish u11 pid2 (by decide))

theorem reach_u13 : Reachable u13 :=
  reach_u12.tail (Step.submit u12 pid3 "c3" .null (by decide) (by decide))

theorem reach_u14 : Reachable u14 :=
  reach_u13.tail (Step.pick u13 pid3 (by decide) (by decide) (by decide))

theorem reach_u15 : Reachable u15 :=
  reach_u14.tail (Step.complete u14 pid2 false (by decide))

theorem reach_u16 : Reachable u16 :=
  reach_u15.tail (Step.finish u15 pid2 (by decide))

theorem reach_u17 : Reachable u17 :=
  reach_u16.tail (Step.submit u16 pid4 "c4" .null (by decide) (by decide))

theorem reach_u18 : Reachable u18 :=
  reach_u17.tail (Step.pick u17 pid4 (by decide) (by decide) (by decide))

end Traces

section Claims

/-- C1: the claim that at most one job has status `processing` in every
reachable state is FALSE of the code.  Through the unlocked read of
`m.runningTask` at main.go:163, a goroutine that found nothing pending can
adopt the task of another goroutine; when it later runs main.go:165-167 it clears
the running marker while a different job is processing, after which a second
job is picked concurrently.  The state `u18`, reached by the 18-step
execution above, has two jobs with status `processing`. -/
theorem c1_two_processing_reachable : Reachable u18 ∧ processingCount u18 = 2 :=
  ⟨reach_u18, by decide⟩

/-- C2 counterexample: the claim that a completed job appears in neither list
of a queue snapshot is FALSE of the code.  In the reachable state `u4` —
after `processPrompt` released the lock (main.go:188) and before
`processQueue` re-acquired it to clear `runningTask` (main.go:165) — job 1 is
`completed` and its tuple still appears in `queue_running`. -/
theorem c2_counterexample :
    Reachable u4 ∧
    lookupPrompt u4.prompts pid1 = some infoCompleted1 ∧
    infoCompleted1.status = Status.completed ∧
    queueTuple infoCompleted1 ∈ queueRunningList u4 := by
  refine ⟨reach_u4, rfl, rfl, ?_⟩
  have hq : queueRunningList u4 = [queueTuple infoCompleted1] := rfl
  rw [hq]
  exact List.mem_singleton.mpr rfl

/-- C2 (amended): in every reachable state, no job appears in both the
running and the pending list of a single queue snapshot, and a completed job
never appears in the pending list.  (A job that has just completed can,
however, still appear transiently in the running list until the worker
clears the running marker — see the counterexample.) -/
theorem c2_running_pending_disjoint (s : ComfyUIMock) (h : Reachable s) :
    (∀ t ∈ queueRunningList s, t ∉ queuePendingList s) ∧
    (∀ pr ∈ s.prompts, pr.2.status = Status.completed →
      queueTuple pr.2 ∉ queuePendingList s) := by
  have inv := inv_reachable h
  constructor
  · intro t ht hpend
    rcases mem_queueRunningList ht with ⟨p, info, hrun, hlook, rfl⟩
    rcases inv.runningNotPending p hrun with ⟨info2, hlook2, hst⟩
    rw [hlook] at hlook2
    cases Option.some.inj hlook2
    rcases mem_queuePendingList.mp hpend with ⟨q, hq, hqst, heq⟩
    have hmemp : (p, info) ∈ s.prompts := lookupPrompt_mem hlook
    have hkey : (p, info).1 = q.1 := by
      have h1 := inv.keysConsistent _ hmemp
      have h2 := inv.keysConsistent _ hq
      have h3 := queueTuple_inj_promptID heq
      simp only at h1 h2 h3 ⊢
      rw [← h1, h3, h2]
    have hqe := entry_eq_of_keys_eq inv.keysNodup hmemp hq hkey
    rw [← hqe] at hqst
    exact hst hqst
  · intro pr hpr hcomp hpend
    rcases mem_queuePendingList.mp hpend with ⟨q, hq, hqst, heq⟩
    have hkey : pr.1 = q.1 := by
      have h1 := inv.keysConsistent _ hpr
      have h2 := inv.keysConsistent _ hq
      have h3 := queueTuple_inj_promptID heq
      rw [← h1, h3, h2]
    have hqe := entry_eq_of_keys_eq inv.keysNodup hpr hq hkey
    rw [← hqe] at hqst
    rw [hcomp] at hqst
    cases hqst

/-- Witness for C2 at the reachable state `u2`: the tuple of the processing
job 1, which is in the running list, is not in the pending list. -/
theorem c2_witness : queueTuple infoProcessing1 ∉ queuePendingList u2 := by
  refine (c2_running_pending_disjoint u2 reach_u2).1 (queueTuple infoProcessing1) ?_
  have hq : queueRunningList u2 = [queueTuple infoProcessing1] := rfl
  rw [hq]
  exact List.mem_singleton.mpr rfl

/-- C3: for a stored job, the history query returns the empty record `{}`
while the job is not completed, and once it is completed it returns exactly
the fixed-shape success record described by the spec: keyed by the job id,
with the stored payload as `prompt`, the stored result as `outputs`, and the
canned status block (`status_str = "success"`, `completed = true`, the
`execution_start` message and the `execution_cached` message naming nodes
`["4","7","5","6"]`). -/
theorem c3_history_record (s : ComfyUIMock) (pid : String) (info : PromptInfo)
    (h : lookupPrompt s.prompts pid = some info) :
    (info.status ≠ Status.completed → (handleHistory s pid).1 = (200, JValue.obj [])) ∧
    (info.status = Status.completed →
      (handleHistory s pid).1 = (200, specHistoryRecord pid info)) := by
  constructor
  · intro hne
    simp [handleHistory, h, hne]
  · intro hco
    simp [handleHistory, h, hco, historySuccessBody, specHistoryRecord]

/-- Witness for C3 at the completed job of the reachable state `u4`. -/
theorem c3_witness :
    (handleHistory u4 pid1).1 = (200, specHistoryRecord pid1 infoCompleted1) :=
  (c3_history_record u4 pid1 infoCompleted1 rfl).2 rfl

/-- C4: when the artifact copy fails during the processing step, the failure
is only logged: the job still ends `completed` with its result stored, the
resulting job table, running marker and goroutines are identical to the
success case, no API response (history or queue) differs, and the goroutine
still proceeds to the section that clears the marker and re-triggers the
loop. -/
theorem c4_copy_failure_only_logged (s : ComfyUIMock) (pid : String)
    (info : PromptInfo) (h : lookupPrompt s.prompts pid = some info) :
    lookupPrompt (processPrompt s pid true).prompts pid = some (completeInfo info) ∧
    (completeInfo info).status = Status.completed ∧
    (completeInfo info).output.isSome = true ∧
    (processPrompt s pid true).prompts = (processPrompt s pid false).prompts ∧
    (processPrompt s pid true).runningTask = (processPrompt s pid false).runningTask ∧
    (processPrompt s pid true).workers = (processPrompt s pid false).workers ∧
    (processPrompt s pid true).log = s.log ++ [copyErrorLog] ∧
    WorkerPhase.afterProcess pid ∈ (processPrompt s pid true).workers ∧
    (∀ q, (handleHistory (processPrompt s pid true) q).1 =
      (handleHistory (processPrompt s pid false) q).1) ∧
    (handleQueue (processPrompt s pid true)).1 =
      (handleQueue (processPrompt s pid false)).1 := by
  refine ⟨?_, rfl, rfl, rfl, rfl, rfl, rfl, ?_,
    fun q => @handleHistory_resp_congr (processPrompt s pid true)
      (processPrompt s pid false) rfl q,
    @handleQueue_resp_congr (processPrompt s pid true)
      (processPrompt s pid false) rfl rfl⟩
  · simp only [processPrompt]
    rw [lookupPrompt_updatePrompt]
    simp [h]
  · simp only [processPrompt]
    exact List.mem_cons_self _ _

/-- Witness for C4 at the reachable state `u3`, whose job 1 is processing. -/
theorem c4_witness :
    (processPrompt u3 pid1 true).log = u3.log ++ [copyErrorLog] ∧
    lookupPrompt (processPrompt u3 pid1 true).prompts pid1 =
      some (completeInfo infoProcessing1) ∧
    (processPrompt u3 pid1 true).prompts = (processPrompt u3 pid1 false).prompts := by
  have hc := c4_copy_failure_only_logged u3 pid1 infoProcessing1 rfl
  exact ⟨hc.2.2.2.2.2.2.1, hc.1, hc.2.2.2.1⟩

/-- C5: the history query fails exactly when the id is not in the job table,
and then it answers 404 with body `{"error": "Prompt not found"}`, leaving
the state unchanged. -/
theorem c5_history_unknown_id (s : ComfyUIMock) (pid : String) :
    ((handleHistory s pid).1 =
        (404, JValue.obj [("error", JValue.str "Prompt not found")]) ↔
      lookupPrompt s.prompts pid = none) ∧
    (handleHistory s pid).2 = s := by
  refine ⟨?_, handleHistory_state s pid⟩
  unfold handleHistory
  cases hl : lookupPrompt s.prompts pid with
  | none => simp [notFoundBody]
  | some info =>
    dsimp only
    split <;> simp

/-- C6: in every reachable state the result of a job is stored exactly when its
status is `completed`; moreover a freshly submitted job is stored `pending`
with no result (status and output are assigned in the same critical sections
that the invariant induction steps through). -/
theorem c6_result_iff_completed (s : ComfyUIMock) (h : Reachable s) :
    (∀ pr ∈ s.prompts, (pr.2.status = Status.completed ↔ pr.2.output.isSome)) ∧
    (∀ pid cid : String, ∀ payload : JValue, (∀ pr ∈ s.prompts, pr.1 ≠ pid) →
      lookupPrompt (handlePrompt s pid cid payload).1.prompts pid =
        some ⟨payload, cid, Status.pending, none, s.queueID + 1, pid⟩) := by
  refine ⟨(inv_reachable h).resultIffCompleted, ?_⟩
  intro pid cid payload hfresh
  simp only [handlePrompt]
  rw [lookupPrompt_append_of_none (lookupPrompt_eq_none hfresh)]
  simp [lookupPrompt]

/-- Witness for C6: the pending job of `u1` has no result, and submitting to
the fresh server stores a pending job without result. -/
theorem c6_witness :
    (infoPending1.status = Status.completed ↔ infoPending1.output.isSome) ∧
    lookupPrompt u1.prompts pid1 = some infoPending1 := by
  refine ⟨(c6_result_iff_completed u1 reach_u1).1 (pid1, infoPending1) ?_, ?_⟩
  · exact List.mem_singleton.mpr rfl
  · exact (c6_result_iff_completed init Relation.ReflTransGen.refl).2 pid1 "c1"
      JValue.null (by decide)

/-- C7: the output collaborator produces exactly the result document
`{"9": {"images": [{"filename": "<first-8>.png", "subfolder": "",
"type": "output"}]}}`, the artifact destination path is the output directory
joined with `output_<first-8>.jpg`, the output directory exists after the
call (created if absent), and on success the content of the source asset is
stored at the destination path. -/
theorem c7_output_collaborator (pid : String) (fs : FS) :
    generateMockOutput pid = specResultDoc (pid.take 8) ∧
    copyDestPath pid = "outputs" ++ "/" ++ ("output_" ++ pid.take 8 ++ ".jpg") ∧
    "outputs" ∈ (copyAndRenameImage fs pid).1.dirs ∧
    (∀ content, FS.read fs.files "resources/image.jpg" = some content →
      FS.read (copyAndRenameImage fs pid).1.files (copyDestPath pid) = some content) := by
  refine ⟨rfl, rfl, ?_, ?_⟩
  · by_cases hdir : "outputs" ∈ fs.dirs
    · cases hread : FS.read fs.files "resources/image.jpg" <;>
        simp [copyAndRenameImage, hread, hdir]
    · cases hread : FS.read fs.files "resources/image.jpg" <;>
        simp [copyAndRenameImage, hread, hdir]
  · intro content hc
    simp [copyAndRenameImage, hc, copyDestPath, FS.read]

/-- Witness for C7 on a filesystem holding the source asset. -/
theorem c7_witness :
    generateMockOutput pid1 = specResultDoc (pid1.take 8) ∧
    FS.read (copyAndRenameImage fsWithAsset pid1).1.files (copyDestPath pid1) =
      some "asset-bytes" ∧
    "outputs" ∈ (copyAndRenameImage fsWithAsset pid1).1.dirs := by
  have hc := c7_output_collaborator pid1 fsWithAsset
  exact ⟨hc.1, hc.2.2.2 "asset-bytes" rfl, hc.2.2.1⟩

/-- C8: in every reachable state the stored sequence numbers are pairwise
distinct, and a submission assigns the new job the sequence number
`queueID + 1`, strictly greater than every sequence number already stored;
distinctness is preserved. -/
theorem c8_sequence_numbers (s : ComfyUIMock) (h : Reachable s) (pid cid : String)
    (payload : JValue) (hfresh : ∀ pr ∈ s.prompts, pr.1 ≠ pid) :
    (∀ pr ∈ s.prompts, pr.2.id < s.queueID + 1) ∧
    lookupPrompt (handlePrompt s pid cid payload).1.prompts pid =
      some ⟨payload, cid, Status.pending, none, s.queueID + 1, pid⟩ ∧
    ((s.prompts.map fun pr => pr.2.id).Nodup) ∧
    (((handlePrompt s pid cid payload).1.prompts.map fun pr => pr.2.id).Nodup) := by
  have inv := inv_reachable h
  refine ⟨fun pr hpr => Nat.lt_succ_of_le (inv.idsBound pr hpr), ?_, inv.idsNodup, ?_⟩
  · simp only [handlePrompt]
    rw [lookupPrompt_append_of_none (lookupPrompt_eq_none hfresh)]
    simp [lookupPrompt]
  · exact (inv_submit inv pid cid payload hfresh).idsNodup

/-- Witness for C8: submitting job 2 on top of `u1` assigns sequence number
2, and the sequence numbers stay pairwise distinct. -/
theorem c8_witness :
    lookupPrompt (handlePrompt u1 pid2 "c2" JValue.null).1.prompts pid2 =
      some ⟨JValue.null, "c2", Status.pending, none, 2, pid2⟩ ∧
    (((handlePrompt u1 pid2 "c2" JValue.null).1.prompts.map fun pr => pr.2.id).Nodup) := by
  have hc := c8_sequence_numbers u1 reach_u1 pid2 "c2" JValue.null (by decide)
  exact ⟨hc.2.1, hc.2.2.2⟩

/-- C9: the history and queue handlers leave the server state (job table,
running marker, sequence counter) unchanged, so repeating either query
without intervening steps yields the same response. -/
theorem c9_queries_idempotent (s : ComfyUIMock) (pid : String) :
    (handleHistory s pid).2 = s ∧ (handleQueue s).2 = s ∧
    (handleHistory (handleHistory s pid).2 pid).1 = (handleHistory s pid).1 ∧
    (handleQueue (handleQueue s).2).1 = (handleQueue s).1 := by
  have hh := handleHistory_state s pid
  exact ⟨hh, rfl, by rw [hh], rfl⟩

/-- C10: every id produced by `generatePromptID` — `uuid.New().String()` — is
a 36-character string, so the `[:8]` slices taken by `generateMockOutput` and
`copyAndRenameImage` are always in bounds and never panic. -/
theorem c10_uuid_slice_safe (b : Fin 16 → Nat) :
    (uuidString b).length = 36 ∧
    goStringSlice (uuidString b) 8 = some ((uuidString b).take 8) := by
  have hlen : (uuidString b).length = 36 := by simp [uuidString, hex2]
  have h86 : 8 ≤ (uuidString b).length := hlen ▸ (by decide : (8 : Nat) ≤ 36)
  exact ⟨hlen, by unfold goStringSlice; rw [if_pos h86]⟩

end Claims

end MockComfy
